import Mathlib

/-!
Verification development for the PyDDL OpenDDL document model and text writer
(`src/pyddl.py`).  The Python classes `DdlPrimitive`, `DdlStructure`,
`DdlDocument` and `DdlTextWriter` are shallowly embedded below; byte strings
are modelled as `List Char`, Python exceptions as `Except PyError`, and the
writer's mutable indent as an explicit parameter threaded through the
recursion (the source's `inc_indent`/`dec_indent` pairs follow a stack
discipline, so the two views coincide).  The stale duplicate package
`src/pyddl/__init__.py` is a snapshot of an older revision of the same file;
the top-level `src/pyddl.py` is embedded.
-/

/-- Byte/text strings of the Python source (`bytes` literals such as `B"..."`)
are modelled as lists of characters; the bytes/str distinction of the source
is not reproduced (all text is one type). -/
abbrev Str := List Char

/-- Convenience conversion from a Lean string literal to `Str`. -/
def chars (s : String) : Str := s.toList

/-- The character `{` (written via its code point to keep braces out of string
literals). -/
def lbrace : Char := Char.ofNat 123

/-- The character `}`. -/
def rbrace : Char := Char.ofNat 125

/-- Tab character, the indentation unit (`inc_indent`, pyddl.py line 219). -/
def tabc : Char := Char.ofNat 9

/-- Error values: models a Python exception escaping the writer
(`raise TypeError(...)` in the source, and built-in `TypeError`s such as
concatenating `None` to bytes). -/
inductive PyError where
  | typeError (msg : Str)
deriving DecidableEq

instance {ε α : Type} [DecidableEq ε] [DecidableEq α] : DecidableEq (Except ε α) := fun a b =>
  match a, b with
  | .ok x, .ok y =>
      if h : x = y then .isTrue (by rw [h]) else .isFalse (by simp [h])
  | .error e, .error f =>
      if h : e = f then .isTrue (by rw [h]) else .isFalse (by simp [h])
  | .ok _, .error _ => .isFalse (by simp)
  | .error _, .ok _ => .isFalse (by simp)

/-- Monadic map over a list in the `Except` monad, evaluated left to right
with the first raised exception propagating: models Python's evaluation of a
list comprehension / `map` consumed by `join`. -/
def mapE {α β : Type} (f : α → Except PyError β) : List α → Except PyError (List β)
  | [] => .ok []
  | x :: xs =>
    match f x with
    | .error e => .error e
    | .ok y =>
      match mapE f xs with
      | .error e => .error e
      | .ok ys => .ok (y :: ys)

/-- `sep.join(parts)` of Python: concatenate `parts` with `sep` between
consecutive elements (empty list yields the empty string). -/
def joinSep (sep : Str) : List Str → Str
  | [] => []
  | [x] => x
  | x :: y :: rest => x ++ sep ++ joinSep sep (y :: rest)

/-- Python `range(0, stop, step)` for `step ≥ 1`: the list
`[0, step, 2*step, ...)` of indices below `stop`; its length is
`⌈stop/step⌉`.  (Python raises for `step = 0`; the writer only uses a
caller-provided positive `max_elements_per_line` here.) -/
def pyRange (stop step : Nat) : List Nat :=
  List.range' 0 ((stop + step - 1) / step) step

/-- The slicing expression `[data[i:i+n] for i in range(0, len(data), n)]`
of `DdlTextWriter.primitive_as_text` (pyddl.py lines 307 and 316): consecutive
groups of at most `n` elements. -/
def chunks {α : Type} (n : Nat) (xs : List α) : List (List α) :=
  (pyRange xs.length n).map (fun i => (xs.drop i).take n)

/-! ### Float values

Python floats are modelled as either a non-finite value or a finite value
with a terminating decimal expansion `man · 10^(-exp)` — exactly the values
the claims exercise.  `str()` on such a float and `round(f, n)` are modelled
exactly for these values (Python's shortest-round-trip repr of a
decimal-representable double prints that decimal). -/

/-- A finite decimal value `man · 10^(-exp)`. -/
structure Dec where
  man : Int
  exp : Nat
deriving DecidableEq

/-- A Python float: finite (decimal-representable) or one of the non-finite
values. -/
inductive PyFloat where
  | finite (d : Dec)
  | inf
  | negInf
  | nan
deriving DecidableEq

/-- `math.isinf`. -/
def PyFloat.isinf : PyFloat → Bool
  | .inf => true
  | .negInf => true
  | _ => false

/-- `math.isnan`. -/
def PyFloat.isnan : PyFloat → Bool
  | .nan => true
  | _ => false

/-- Round `num / den` (for `den > 0`) to the nearest integer, ties to even:
the rounding mode of Python's built-in `round`. -/
def roundHalfEvenInt (num den : Int) : Int :=
  let q := Int.fdiv num den
  let r := num - q * den
  if 2 * r < den then q
  else if den < 2 * r then q + 1
  else if q % 2 = 0 then q else q + 1

/-- Python's `round(f, nd)` on a finite decimal value: keep at most `nd`
decimal places, rounding half to even. -/
def pyRound (d : Dec) (nd : Nat) : Dec :=
  if d.exp ≤ nd then d
  else ⟨roundHalfEvenInt d.man ((10 : Int) ^ (d.exp - nd)), nd⟩

/-- Drop trailing zero decimal digits: `(m·10 , e+1)` and `(m, e)` denote the
same value and Python's repr prints the shorter form. -/
def stripZeros : Nat → Nat → Nat × Nat
  | m, 0 => (m, 0)
  | m, e + 1 => if m % 10 = 0 then stripZeros (m / 10) e else (m, e + 1)

/-- Decimal digit string of a natural number. -/
def natStr (n : Nat) : Str := chars (toString n)

/-- Left-pad a digit string with zeros to length `k`. -/
def padZeros (k : Nat) (s : Str) : Str := List.replicate (k - s.length) '0' ++ s

/-- Python `str()` of a finite float with a terminating decimal expansion:
sign, integer part, then a fractional part with trailing zeros removed
(`"1.0"` when the value is integral, e.g. `str(0.5) = "0.5"`,
`str(1.0) = "1.0"`). -/
def pyFloatStr (d : Dec) : Str :=
  let sgn : Str := if d.man < 0 then chars "-" else []
  let (a, e) := stripZeros d.man.natAbs d.exp
  if e = 0 then sgn ++ natStr a ++ chars ".0"
  else sgn ++ natStr (a / 10 ^ e) ++ chars "." ++ padZeros e (natStr (a % 10 ^ e))

/-! ### The static conversion functions of `DdlTextWriter` (pyddl.py 185-213) -/

/-- `DdlTextWriter.to_float_byte_rounded` (lines 185-190): non-finite values
become the literal `0.0`; otherwise `str(round(f, 6))` — note the constant
`6`, regardless of the writer's `rounding` option. -/
def to_float_byte_rounded (f : PyFloat) : Str :=
  match f with
  | .finite d => pyFloatStr (pyRound d 6)
  | _ => chars "0.0"

/-- `DdlTextWriter.to_float_byte` (lines 192-197): non-finite values become
`0.0`; otherwise `str(f)` with no rounding. -/
def to_float_byte (f : PyFloat) : Str :=
  match f with
  | .finite d => pyFloatStr d
  | _ => chars "0.0"

/-- Definition following the SPEC's words (not the source), for comparison
with `to_float_byte_rounded` (claim C1): the float value rendered “rounded to
exactly N decimal places” for the configured precision `n`, non-finite values
rendering as `0.0`. -/
def spec_float_text (n : Nat) (f : PyFloat) : Str :=
  match f with
  | .finite d => pyFloatStr (pyRound d n)
  | _ => chars "0.0"

/-- `DdlTextWriter.to_int_byte` (lines 199-201): `bytes(str(i))`. -/
def to_int_byte (i : Int) : Str := chars (toString i)

/-- `DdlTextWriter.to_string_byte` (lines 203-205): the text itself (UTF-8
encoding is identity in this model). -/
def to_string_byte (s : Str) : Str := s

/-- `DdlTextWriter.to_bool_byte` (lines 207-209). -/
def to_bool_byte (b : Bool) : Str :=
  if b then chars "true" else chars "false"

/-- The referenced structure as seen by `DdlTextWriter.to_ref_byte`: only its
`name` attribute is read.  (A reference-type data entry holds the target
`DdlStructure` object; carrying just the name field keeps the data model
non-mutually-recursive.) -/
structure RefTarget where
  name : Option Str
deriving DecidableEq

/-- `DdlTextWriter.to_ref_byte` (lines 211-213): `B"$" + structure.name`.
When the target is anonymous (`name` is `None`), the Python expression raises
`TypeError: can't concat NoneType to bytes` — modelled as an error. -/
def to_ref_byte (st : RefTarget) : Except PyError Str :=
  match st.name with
  | some n => .ok (chars "$" ++ n)
  | none => .error (.typeError (chars "cannot concat NoneType to bytes"))

/-! ### The data model (pyddl.py 9-137) -/

/-- `DdlPrimitiveDataType` (pyddl.py lines 9-30). -/
inductive DdlPrimitiveDataType where
  | bool
  | int8
  | int16
  | int32
  | int64
  | unsigned_int8
  | unsigned_int16
  | unsigned_int32
  | unsigned_int64
  | half
  | float
  | double
  | string
  | ref
  | type
deriving DecidableEq

/-- The `.name` of an enum member, used by `primitive_as_text` line 262 for
the type token. -/
def dt_name : DdlPrimitiveDataType → Str
  | .bool => chars "bool"
  | .int8 => chars "int8"
  | .int16 => chars "int16"
  | .int32 => chars "int32"
  | .int64 => chars "int64"
  | .unsigned_int8 => chars "unsigned_int8"
  | .unsigned_int16 => chars "unsigned_int16"
  | .unsigned_int32 => chars "unsigned_int32"
  | .unsigned_int64 => chars "unsigned_int64"
  | .half => chars "half"
  | .float => chars "float"
  | .double => chars "double"
  | .string => chars "string"
  | .ref => chars "ref"
  | .type => chars "type"

/-- A scalar data value held in a primitive's `data` list. -/
inductive Scalar where
  | b (x : Bool)
  | i (x : Int)
  | f (x : PyFloat)
  | s (x : Str)
  | ref (t : RefTarget)
deriving DecidableEq

/-- One entry of `DdlPrimitive.data`: a scalar when `vector_size == 0`, a
tuple of scalars when `vector_size > 0` (spec §3 invariant; mismatched shapes
are a caller error). -/
inductive PyDataEntry where
  | scalar (x : Scalar)
  | tuple (xs : List Scalar)
deriving DecidableEq

/-- A property value of a structure's `properties` dict: the recognized types
are bool, int, float and str; `other` stands for any Python value outside
that set (the `else: raise TypeError` branch of `property_as_text`). -/
inductive PyValue where
  | bool (b : Bool)
  | int (i : Int)
  | float (f : PyFloat)
  | str (s : Str)
  | other
deriving DecidableEq

/-- `DdlPrimitive` (pyddl.py lines 33-52).  `max_elements_per_line` models the
ad hoc attribute installed by `DdlTextWriter.set_max_elements_per_line`
(`hasattr` check at lines 302/311); `comment` models the ad hoc attribute an
external `set_comment` helper would install (see the spec-modelled renderers
below) — the source renderer ignores it. -/
structure DdlPrimitive where
  data_type : DdlPrimitiveDataType
  data : List PyDataEntry
  name : Option Str
  vector_size : Nat
  max_elements_per_line : Option Nat
  comment : Option Str
deriving DecidableEq

/-- `DdlPrimitive.is_simple_primitive` (lines 51-52):
`len(self.data) == 1 and self.vector_size <= 4`. -/
def DdlPrimitive.is_simple_primitive (p : DdlPrimitive) : Bool :=
  decide (p.data.length = 1) && decide (p.vector_size ≤ 4)

mutual
/-- A child of a structure: a primitive or a nested structure (the
polymorphic `children` list of `DdlStructure`). -/
inductive DdlChild where
  | prim (p : DdlPrimitive)
  | sub (s : DdlStructure)
/-- `DdlStructure` (pyddl.py lines 55-115).  `properties` is the ordered
key/value sequence of the Python (ordered) dict; `comment` models the ad hoc
comment attribute (ignored by the source renderer). -/
inductive DdlStructure where
  | mk (identifier : Str) (name : Option Str) (children : List DdlChild)
      (properties : List (Str × PyValue)) (comment : Option Str)
end

/-- Field accessor. -/
def DdlStructure.identifier : DdlStructure → Str
  | .mk x _ _ _ _ => x

/-- Field accessor. -/
def DdlStructure.name : DdlStructure → Option Str
  | .mk _ x _ _ _ => x

/-- Field accessor. -/
def DdlStructure.children : DdlStructure → List DdlChild
  | .mk _ _ x _ _ => x

/-- Field accessor. -/
def DdlStructure.properties : DdlStructure → List (Str × PyValue)
  | .mk _ _ _ x _ => x

/-- Field accessor. -/
def DdlStructure.comment : DdlStructure → Option Str
  | .mk _ _ _ _ x => x

/-- `DdlStructure.__init__` (pyddl.py lines 60-70):
`self.name = name if name != "" else None`.  The comparison is against the
`str` empty string while names in this API are `bytes` (the renderer
concatenates `B" $" + name`), and in Python 3 `bytes` never compare equal to
`str`: `B"" != ""` is `True`, and `None != ""` is `True`, so the condition
holds for every `bytes` or absent name and the name is stored unchanged — in
particular an empty `bytes` name is kept, not nulled.  (Only the `str` `""`,
a type this bytes API does not otherwise accept, would trigger the `None`
branch; the model has a single text type standing for `bytes`.) -/
def DdlStructure.init (identifier : Str) (name : Option Str)
    (children : List DdlChild) (props : List (Str × PyValue)) : DdlStructure :=
  .mk identifier name children props none

/-- The reference-target view of a structure: the one field `to_ref_byte`
reads. -/
def DdlStructure.refView (s : DdlStructure) : RefTarget := ⟨s.name⟩

/-- `DdlStructure.is_simple_structure` (pyddl.py lines 72-90): exactly one
child, no properties, no name, and the sole child is a primitive that is
itself simple. -/
def DdlStructure.is_simple_structure : DdlStructure → Bool
  | .mk _ nm ch pr _ =>
    if ch.length ≠ 1 then false
    else if pr.length ≠ 0 then false
    else if nm ≠ none then false
    else
      match ch with
      | [.prim p] => p.is_simple_primitive
      | _ => false

/-- `DdlDocument` (pyddl.py lines 118-137). -/
structure DdlDocument where
  structures : List DdlStructure

/-- The text writer's per-instance configuration: the `rounding` option from
`DdlTextWriter.__init__` (pyddl.py line 183), `None` or a number of decimal
places.  The `file` and `indent` attributes are modelled as explicit
parameters of the rendering functions. -/
structure DdlTextWriter where
  rounding : Option Nat
deriving DecidableEq

/-- `DdlTextWriter.property_as_text` (pyddl.py lines 235-253).  The
`isinstance` chain checks `bool` before `int` (a Python bool would otherwise
match `int`), then `float`, then `str`; anything else raises `TypeError`.
The float case uses the unrounded `to_float_byte` unconditionally. -/
def property_as_text (prop : Str × PyValue) : Except PyError Str :=
  match prop.2 with
  | .bool b => .ok (prop.1 ++ chars " = " ++ to_bool_byte b)
  | .int i => .ok (prop.1 ++ chars " = " ++ to_int_byte i)
  | .float f => .ok (prop.1 ++ chars " = " ++ to_float_byte f)
  | .str s => .ok (prop.1 ++ chars " = " ++ chars "\"" ++ s ++ chars "\"")
  | .other =>
      .error (.typeError (chars "ERROR: Unknown property type for property \""
        ++ prop.1 ++ chars "\""))

/-- Apply `to_float_byte` / `to_float_byte_rounded` to a data entry expected
to be a float (non-float entries are a caller precondition violation, spec
§3, modelled as an error). -/
def lift_float (g : PyFloat → Str) : Scalar → Except PyError Str
  | .f x => .ok (g x)
  | _ => .error (.typeError (chars "data entry incompatible with data_type"))

/-- Line 276 of `primitive_as_text`: select the unrounded conversion when the
writer's `rounding` option is `None`, the (fixed-precision) rounded one
otherwise. -/
def float_conv (w : DdlTextWriter) : Scalar → Except PyError Str :=
  lift_float (if w.rounding = none then to_float_byte else to_float_byte_rounded)

/-- `to_bool_byte` on a data entry expected to be a bool. -/
def conv_bool : Scalar → Except PyError Str
  | .b x => .ok (to_bool_byte x)
  | _ => .error (.typeError (chars "data entry incompatible with data_type"))

/-- `to_int_byte` on a data entry expected to be an integer. -/
def conv_int : Scalar → Except PyError Str
  | .i x => .ok (to_int_byte x)
  | _ => .error (.typeError (chars "data entry incompatible with data_type"))

/-- `to_string_byte` on a data entry expected to be a string. -/
def conv_string : Scalar → Except PyError Str
  | .s x => .ok (to_string_byte x)
  | _ => .error (.typeError (chars "data entry incompatible with data_type"))

/-- `to_ref_byte` on a data entry expected to be a structure reference. -/
def conv_ref : Scalar → Except PyError Str
  | .ref t => to_ref_byte t
  | _ => .error (.typeError (chars "data entry incompatible with data_type"))

/-- The conversion-function dispatch of `primitive_as_text` (pyddl.py lines
270-288): bool; float/double (subject to the rounding option); the eight
integer kinds and half; string; ref; anything else (the `type` kind) raises
`TypeError("Encountered unknown primitive type.")` — before any data is
examined. -/
def select_to_bytes (w : DdlTextWriter) :
    DdlPrimitiveDataType → Except PyError (Scalar → Except PyError Str)
  | .bool => .ok conv_bool
  | .double => .ok (float_conv w)
  | .float => .ok (float_conv w)
  | .int8 => .ok conv_int
  | .int16 => .ok conv_int
  | .int32 => .ok conv_int
  | .int64 => .ok conv_int
  | .unsigned_int8 => .ok conv_int
  | .unsigned_int16 => .ok conv_int
  | .unsigned_int32 => .ok conv_int
  | .unsigned_int64 => .ok conv_int
  | .half => .ok conv_int
  | .string => .ok conv_string
  | .ref => .ok conv_ref
  | .type => .error (.typeError (chars "Encountered unknown primitive type."))

/-- Apply the selected conversion to a flat (`vector_size == 0`) data entry. -/
def conv_entry (f : Scalar → Except PyError Str) : PyDataEntry → Except PyError Str
  | .scalar sc => f sc
  | .tuple _ => .error (.typeError (chars "data entry incompatible with vector_size"))

/-- Apply the selected conversion to each component of a vector data entry. -/
def conv_vec (f : Scalar → Except PyError Str) :
    PyDataEntry → Except PyError (List Str)
  | .tuple xs => mapE f xs
  | .scalar _ => .error (.typeError (chars "data entry incompatible with vector_size"))

/-- The header portion of `primitive_as_text` (pyddl.py lines 262-268):
optional leading indent, the data-type token, `[vector_size]` when the
primitive holds vectors, and ` $name ` when the primitive is named. -/
def primitive_header (ind : Str) (p : DdlPrimitive) (no_indent : Bool) : Str :=
  let t0 := (if no_indent then [] else ind) ++ dt_name p.data_type
  let t1 :=
    if p.vector_size > 0 then
      t0 ++ chars "[" ++ to_int_byte (p.vector_size : Int) ++ chars "]"
    else t0
  match p.name with
  | some n => t1 ++ chars " $" ++ n ++ chars " "
  | none => t1

/-- `DdlTextWriter.primitive_as_text` (pyddl.py lines 255-324).  `ind` is the
writer's current `self.indent`; inside the multi-line block the indent is one
tab deeper (`inc_indent`/`dec_indent` at lines 299/321). -/
def primitive_as_text (w : DdlTextWriter) (ind : Str) (p : DdlPrimitive)
    (no_indent : Bool) : Except PyError Str :=
  match select_to_bytes w p.data_type with
  | .error e => .error e
  | .ok to_bytes =>
    let text := primitive_header ind p no_indent
    match p.data with
    | [] => .ok (text ++ chars " " ++ [lbrace] ++ chars " " ++ [rbrace])
    | [d] =>
      if p.vector_size = 0 then
        match conv_entry to_bytes d with
        | .error e => .error e
        | .ok v => .ok (text ++ chars " " ++ [lbrace] ++ v ++ [rbrace])
      else
        match conv_vec to_bytes d with
        | .error e => .error e
        | .ok vs =>
            .ok (text ++ chars " " ++ [lbrace] ++ chars " " ++ [lbrace]
              ++ joinSep (chars ", ") vs ++ [rbrace] ++ chars " " ++ [rbrace])
    | _ =>
      let ind2 := ind ++ [tabc]
      let bodyE : Except PyError Str :=
        if p.vector_size = 0 then
          match p.max_elements_per_line with
          | some n =>
            match mapE (fun g => (mapE (conv_entry to_bytes) g).map
                (joinSep (chars ", "))) (chunks n p.data) with
            | .error e => .error e
            | .ok lines =>
                .ok (ind2 ++ joinSep (chars ",\n" ++ ind2) lines ++ chars "\n")
          | none =>
            match mapE (conv_entry to_bytes) p.data with
            | .error e => .error e
            | .ok vs => .ok (ind2 ++ joinSep (chars ", ") vs ++ chars "\n")
        else
          match p.max_elements_per_line with
          | some n =>
            match mapE (fun g => (mapE (fun d => (conv_vec to_bytes d).map
                  (joinSep (chars ", "))) g).map
                (joinSep ([rbrace] ++ chars ", " ++ [lbrace])))
                (chunks n p.data) with
            | .error e => .error e
            | .ok groupStrs =>
                .ok (ind2 ++ [lbrace]
                  ++ joinSep ([rbrace] ++ chars ",\n" ++ ind2 ++ [lbrace]) groupStrs
                  ++ [rbrace] ++ chars "\n")
          | none =>
            match mapE (fun d => (conv_vec to_bytes d).map (joinSep (chars ", ")))
                p.data with
            | .error e => .error e
            | .ok vstrs =>
                .ok (ind2 ++ [lbrace]
                  ++ joinSep ([rbrace] ++ chars ", " ++ [lbrace]) vstrs
                  ++ [rbrace] ++ chars "\n")
      match bodyE with
      | .error e => .error e
      | .ok body =>
          .ok (text ++ chars "\n" ++ ind ++ [lbrace] ++ chars "\n" ++ body
            ++ ind ++ [rbrace] ++ chars "\n")

mutual
/-- `DdlTextWriter.structure_as_text` (pyddl.py lines 326-355): indent and
identifier; ` $name` when `structure.name` is truthy (present and non-empty);
the parenthesized property list when non-empty; then either the single-line
collapsed form (simple structures) or the indented block over the children. -/
def structure_as_text (w : DdlTextWriter) (ind : Str) :
    DdlStructure → Except PyError Str
  | .mk idf nm ch pr cm =>
    let t1 := ind ++ idf
    let t2 :=
      match nm with
      | some n => if n.isEmpty then t1 else t1 ++ chars " $" ++ n
      | none => t1
    let headE : Except PyError Str :=
      if pr.length ≠ 0 then
        match mapE property_as_text pr with
        | .error e => .error e
        | .ok ps => .ok (t2 ++ chars " (" ++ joinSep (chars ", ") ps ++ chars ")")
      else .ok t2
    match headE with
    | .error e => .error e
    | .ok t3 =>
      if (DdlStructure.mk idf nm ch pr cm).is_simple_structure then
        match ch with
        | [.prim p] =>
          match primitive_as_text w ind p true with
          | .error e => .error e
          | .ok inner =>
              .ok (t3 ++ chars " " ++ [lbrace] ++ inner ++ [rbrace] ++ chars "\n")
        | _ => .error (.typeError (chars "unreachable: simple structure shape"))
      else
        match children_as_text w (ind ++ [tabc]) ch with
        | .error e => .error e
        | .ok body =>
            .ok (t3 ++ chars "\n" ++ ind ++ [lbrace] ++ chars "\n" ++ body
              ++ ind ++ [rbrace] ++ chars "\n")
/-- The child loop of `structure_as_text` (pyddl.py lines 346-350):
primitives via `primitive_as_text`, nested structures recursively, outputs
concatenated. -/
def children_as_text (w : DdlTextWriter) (ind : Str) :
    List DdlChild → Except PyError Str
  | [] => .ok []
  | .prim p :: rest =>
    match primitive_as_text w ind p false with
    | .error e => .error e
    | .ok t =>
      match children_as_text w ind rest with
      | .error e => .error e
      | .ok ts => .ok (t ++ ts)
  | .sub s :: rest =>
    match structure_as_text w ind s with
    | .error e => .error e
    | .ok t =>
      match children_as_text w ind rest with
      | .error e => .error e
      | .ok ts => .ok (t ++ ts)
end

/-- `DdlTextWriter.write` (pyddl.py lines 227-233): open the destination,
render and write each top-level structure in order, then close.  There is no
`try`/`finally`: when a rendering step raises, the exception propagates past
the `close()` call, so the second component — "the destination was closed" —
is `true` only on the success path. -/
def DdlTextWriter.write (w : DdlTextWriter) (doc : DdlDocument) :
    Except PyError Str × Bool :=
  match mapE (structure_as_text w []) doc.structures with
  | .ok parts => (.ok parts.flatten, true)
  | .error e => (.error e, false)

/-! ### Heap model of the constructor defaults (claim C9)

Rendering never mutates the document, so the tree model above is faithful for
it; the builder API's aliasing, however, needs object identity.  The heap
model below tracks Python list/dict objects in stores and structures holding
references into them.  Per CPython semantics, the default values in
`def __init__(self, identifier, name=None, children=[], props=dict())`
(pyddl.py line 60) are created once, when the `def` statement executes, and
that same list/dict object is passed to every call omitting the argument. -/

/-- A child object as tracked by the heap model (identity only; contents are
irrelevant to the aliasing claim). -/
inductive HObj where
  | primObj (dt : DdlPrimitiveDataType)
  | structObj (identifier : Str)
deriving DecidableEq

/-- The stores of Python list objects and dict objects. -/
structure PyHeap where
  lists : List (List HObj)
  dicts : List (List (Str × PyValue))
deriving DecidableEq

/-- The heap after the `class DdlStructure` body executes: cell 0 of each
store holds the single default `[]` / `dict()` of `DdlStructure.__init__`. -/
def ddlStructure_defaults_heap : PyHeap := ⟨[[]], [[]]⟩

/-- The reference to `DdlStructure.__init__`'s default `children` list. -/
def ddlStructure_default_children : Nat := 0

/-- The reference to `DdlStructure.__init__`'s default `props` dict. -/
def ddlStructure_default_props : Nat := 0

/-- A `DdlStructure` object under the heap model: its collections are held by
reference. -/
structure HStructure where
  identifier : Str
  name : Option Str
  childrenRef : Nat
  propsRef : Nat
deriving DecidableEq

/-- `DdlStructure.__init__` (pyddl.py lines 60-70) under the heap model: the
fields are assigned (the `bytes` name is stored unchanged, as in
`DdlStructure.init`); an omitted `children`/`props` argument means the shared
default object.  No new collection is allocated. -/
def ddlStructure_init (h : PyHeap) (identifier : Str) (name : Option Str)
    (children : Option Nat) (props : Option Nat) : HStructure × PyHeap :=
  (⟨identifier, name,
    children.getD ddlStructure_default_children,
    props.getD ddlStructure_default_props⟩, h)

/-- `list.append` on the list object a reference points to. -/
def heap_append_child (h : PyHeap) (r : Nat) (obj : HObj) : PyHeap :=
  ⟨h.lists.set r ((h.lists.getD r []) ++ [obj]), h.dicts⟩

/-- `DdlStructure.add_primitive` (pyddl.py lines 105-115) under the heap
model: append a new `DdlPrimitive` to `self.children` and return `self`. -/
def hstructure_add_primitive (h : PyHeap) (self : HStructure)
    (dt : DdlPrimitiveDataType) : HStructure × PyHeap :=
  (self, heap_append_child h self.childrenRef (.primObj dt))

/-- The current contents of a structure's `children` list object. -/
def children_of (h : PyHeap) (s : HStructure) : List HObj :=
  h.lists.getD s.childrenRef []

/-! ### Spec-modelled comment emission (claim C2)

Modelled from the spec: the comment feature — `DdlTextWriter.set_comment`
installing a `comment` attribute, and the writer emitting `// <comment>` on
its own line before the node — is absent from the source under `src/` (only
the test suite calls `set_comment`).  Spec §4.2: a structure's comment is
emitted on its own line at the current indent before anything else of the
structure; a primitive's comment likewise above the primitive, except when
the leading indent is suppressed (inside a simple-structure collapse), where
it is skipped. -/

/-- Modelled from the spec: the `// <comment>` line at the given indent (empty
when no comment is attached). -/
def comment_line (ind : Str) : Option Str → Str
  | some c => ind ++ chars "// " ++ c ++ chars "\n"
  | none => []

/-- Modelled from the spec: `primitive_as_text` extended with comment
emission — the comment line precedes the primitive's text unless the leading
indent is suppressed. -/
def primitive_as_text_c (w : DdlTextWriter) (ind : Str) (p : DdlPrimitive)
    (no_indent : Bool) : Except PyError Str :=
  match primitive_as_text w ind p no_indent with
  | .error e => .error e
  | .ok r => .ok ((if no_indent then [] else comment_line ind p.comment) ++ r)

mutual
/-- Modelled from the spec: everything of the comment-emitting structure
rendering except the structure's own leading comment line (which
`structure_as_text_c` prepends).  The body does not read the structure's
`comment` field; children are rendered with their own comments. -/
def structure_body_c (w : DdlTextWriter) (ind : Str) :
    DdlStructure → Except PyError Str
  | .mk idf nm ch pr _ =>
    let t1 := ind ++ idf
    let t2 :=
      match nm with
      | some n => if n.isEmpty then t1 else t1 ++ chars " $" ++ n
      | none => t1
    let headE : Except PyError Str :=
      if pr.length ≠ 0 then
        match mapE property_as_text pr with
        | .error e => .error e
        | .ok ps => .ok (t2 ++ chars " (" ++ joinSep (chars ", ") ps ++ chars ")")
      else .ok t2
    match headE with
    | .error e => .error e
    | .ok t3 =>
      if (DdlStructure.mk idf nm ch pr none).is_simple_structure then
        match ch with
        | [.prim p] =>
          match primitive_as_text_c w ind p true with
          | .error e => .error e
          | .ok inner =>
              .ok (t3 ++ chars " " ++ [lbrace] ++ inner ++ [rbrace] ++ chars "\n")
        | _ => .error (.typeError (chars "unreachable: simple structure shape"))
      else
        match children_as_text_c w (ind ++ [tabc]) ch with
        | .error e => .error e
        | .ok body =>
            .ok (t3 ++ chars "\n" ++ ind ++ [lbrace] ++ chars "\n" ++ body
              ++ ind ++ [rbrace] ++ chars "\n")
/-- Modelled from the spec: the child loop of the comment-emitting renderer;
a nested structure's output is its comment line followed by its body. -/
def children_as_text_c (w : DdlTextWriter) (ind : Str) :
    List DdlChild → Except PyError Str
  | [] => .ok []
  | .prim p :: rest =>
    match primitive_as_text_c w ind p false with
    | .error e => .error e
    | .ok t =>
      match children_as_text_c w ind rest with
      | .error e => .error e
      | .ok ts => .ok (t ++ ts)
  | .sub s :: rest =>
    match structure_body_c w ind s with
    | .error e => .error e
    | .ok t =>
      match children_as_text_c w ind rest with
      | .error e => .error e
      | .ok ts => .ok (comment_line ind s.comment ++ t ++ ts)
end

/-- Modelled from the spec: the full comment-emitting structure rendering —
the structure's `// <comment>` line at the current indent, before anything
else of the structure, followed by the rest of its text. -/
def structure_as_text_c (w : DdlTextWriter) (ind : Str) (s : DdlStructure) :
    Except PyError Str :=
  (structure_body_c w ind s).map (fun r => comment_line ind s.comment ++ r)

/-- The 99-element flat integer primitive of the max-elements-per-line test
(values 1..99, hint 10). -/
def p99 : DdlPrimitive :=
  ⟨.int32, (List.range 99).map (fun i => .scalar (.i ((i : Int) + 1))), none, 0, some 10, none⟩

/-- The rendered texts of `p99`'s 99 values. -/
def vals99 : List Str := (List.range 99).map (fun i => to_int_byte ((i : Int) + 1))

/-- A three-vector integer primitive (`vector_size = 2`) with a
max-elements-per-line hint of 2. -/
def pvec : DdlPrimitive :=
  ⟨.int32, [.tuple [.i 1, .i 2], .tuple [.i 3, .i 4], .tuple [.i 5, .i 6]],
    none, 2, some 2, none⟩

/-- The inner comma-joined renderings of `pvec`'s three vectors. -/
def vvalsEx : List Str := [chars "1, 2", chars "3, 4", chars "5, 6"]

/-! ### Lemmas about `chunks` (the grouping of `range(0, len, n)` slicing) -/

theorem chunks_nil {α : Type} (n : Nat) : chunks n ([] : List α) = [] := by
  cases n with
  | zero => simp [chunks, pyRange]
  | succ k =>
    have h : k / (k + 1) = 0 := Nat.div_eq_of_lt (by omega)
    simp [chunks, pyRange, h]

theorem ceil_div_pred (L n : Nat) (hn : 1 ≤ n) (hL : 1 ≤ L) :
    (L + n - 1) / n = (L - n + n - 1) / n + 1 := by
  rcases le_or_lt L n with h | h
  · have h1 : L - n = 0 := by omega
    have h2 : (0 + n - 1) / n = 0 := Nat.div_eq_of_lt (by omega)
    have h3 : L + n - 1 = (L - 1) + n := by omega
    have h4 : (L - 1) / n = 0 := Nat.div_eq_of_lt (by omega)
    rw [h1, h2, h3, Nat.add_div_right _ (by omega), h4]
  · have h3 : L + n - 1 = (L - n + n - 1) + n := by omega
    rw [h3, Nat.add_div_right _ (by omega)]

theorem chunks_cons {α : Type} (n : Nat) (hn : 1 ≤ n) (xs : List α) (hxs : xs ≠ []) :
    chunks n xs = xs.take n :: chunks n (xs.drop n) := by
  have hL : 1 ≤ xs.length := List.length_pos.mpr hxs
  simp only [chunks, pyRange, List.length_drop]
  rw [ceil_div_pred xs.length n hn hL, List.range'_succ, List.map_cons]
  have hr : List.range' (0 + n) ((xs.length - n + n - 1) / n) n
      = List.map (n + ·) (List.range' 0 ((xs.length - n + n - 1) / n) n) := by
    rw [List.map_add_range', Nat.add_comm]
  rw [List.drop_zero, hr, List.map_map]
  congr 1
  apply List.map_congr_left
  intro i _
  simp [Function.comp, List.drop_drop, Nat.add_comm]

theorem chunks_length {α : Type} (n : Nat) (xs : List α) :
    (chunks n xs).length = (xs.length + n - 1) / n := by
  simp [chunks, pyRange]

theorem chunks_flatten {α : Type} (n : Nat) (hn : 1 ≤ n) (xs : List α) :
    (chunks n xs).flatten = xs := by
  by_cases hxs : xs = []
  · subst hxs; rw [chunks_nil]; rfl
  · rw [chunks_cons n hn xs hxs, List.flatten_cons,
      chunks_flatten n hn (xs.drop n), List.take_append_drop]
termination_by xs.length
decreasing_by
  have h1 : 1 ≤ xs.length := List.length_pos.mpr hxs
  simp only [List.length_drop]
  omega

theorem chunks_mem_length_le {α : Type} (n : Nat) (xs : List α) :
    ∀ g ∈ chunks n xs, g.length ≤ n := by
  intro g hg
  simp only [chunks, List.mem_map] at hg
  obtain ⟨i, _, rfl⟩ := hg
  simp only [List.length_take]
  exact Nat.min_le_left _ _

theorem chunks_mem_ne_nil {α : Type} (n : Nat) (hn : 1 ≤ n) (xs : List α) :
    ∀ g ∈ chunks n xs, g ≠ [] := by
  intro g hg
  simp only [chunks, pyRange, List.mem_map] at hg
  obtain ⟨i, hi, rfl⟩ := hg
  rw [List.mem_range'] at hi
  obtain ⟨j, hj, rfl⟩ := hi
  have hjn : (j + 1) * n ≤ xs.length + n - 1 :=
    (Nat.le_div_iff_mul_le (by omega)).mp hj
  have hsucc : (j + 1) * n = j * n + n := Nat.succ_mul j n
  have hlt : n * j < xs.length := by
    have hc := Nat.mul_comm j n
    omega
  have hpos : 0 < ((xs.drop (0 + n * j)).take n).length := by
    simp only [List.length_take, List.length_drop]
    omega
  exact List.ne_nil_of_length_pos hpos

theorem chunks_init_full {α : Type} (n : Nat) (hn : 1 ≤ n) (xs : List α) :
    ∀ gs last, chunks n xs = gs ++ [last] → ∀ g ∈ gs, g.length = n := by
  intro gs last hEq g hg
  by_cases hxs : xs = []
  · rw [hxs, chunks_nil] at hEq
    exact absurd hEq.symm (by simp)
  · rw [chunks_cons n hn xs hxs] at hEq
    cases gs with
    | nil => simp at hg
    | cons a gs2 =>
      rw [List.cons_append] at hEq
      injection hEq with h1 h2
      rcases List.mem_cons.mp hg with hga | hg2
      · have hdrop : xs.drop n ≠ [] := by
          intro h0
          rw [h0, chunks_nil] at h2
          exact absurd h2.symm (by simp)
        have hlen : ¬xs.length ≤ n := by
          intro hle
          exact hdrop (List.drop_eq_nil_iff.mpr hle)
        rw [hga, ← h1]
        simp only [List.length_take]
        omega
      · exact chunks_init_full n hn (xs.drop n) gs2 last h2 g hg2
termination_by xs.length
decreasing_by
  have h1 : 1 ≤ xs.length := List.length_pos.mpr hxs
  simp only [List.length_drop]
  omega

theorem chunks_ne_nil {α : Type} (n : Nat) (hn : 1 ≤ n) (xs : List α) (hxs : xs ≠ []) :
    chunks n xs ≠ [] := by
  rw [chunks_cons n hn xs hxs]
  simp

theorem joinSep_wrap (sep : Str) :
    ∀ xs : List Str, xs ≠ [] →
      [lbrace] ++ joinSep ([rbrace] ++ sep ++ [lbrace]) xs ++ [rbrace]
        = joinSep sep (xs.map (fun x => [lbrace] ++ x ++ [rbrace])) := by
  intro xs
  induction xs with
  | nil => intro h; exact absurd rfl h
  | cons x rest ih =>
    intro _
    cases rest with
    | nil => simp [joinSep]
    | cons y rest2 =>
      have ihr := ih (by simp)
      simp only [joinSep, List.map_cons] at ihr ⊢
      rw [← ihr]
      simp [List.append_assoc]

/-! ### Lemmas about `mapE` -/

theorem mapE_ok_length {α β : Type} (f : α → Except PyError β) :
    ∀ (xs : List α) (ys : List β), mapE f xs = .ok ys → ys.length = xs.length := by
  intro xs
  induction xs with
  | nil =>
    intro ys h
    simp only [mapE] at h
    injection h with h
    rw [← h]
    rfl
  | cons x xs ih =>
    intro ys h
    simp only [mapE] at h
    cases hfx : f x with
    | error e => rw [hfx] at h; cases h
    | ok y =>
      rw [hfx] at h
      cases hrest : mapE f xs with
      | error e => rw [hrest] at h; cases h
      | ok ys2 =>
        rw [hrest] at h
        injection h with h2
        rw [← h2]
        simp [ih ys2 hrest]

theorem mapE_ok_take {α β : Type} (f : α → Except PyError β) :
    ∀ (xs : List α) (ys : List β), mapE f xs = .ok ys →
      ∀ n, mapE f (xs.take n) = .ok (ys.take n) := by
  intro xs
  induction xs with
  | nil =>
    intro ys h n
    simp only [mapE] at h
    injection h with h
    rw [← h]
    simp [mapE]
  | cons x xs ih =>
    intro ys h n
    simp only [mapE] at h
    cases hfx : f x with
    | error e => rw [hfx] at h; cases h
    | ok y =>
      rw [hfx] at h
      cases hrest : mapE f xs with
      | error e => rw [hrest] at h; cases h
      | ok ys2 =>
        rw [hrest] at h
        injection h with h2
        rw [← h2]
        cases n with
        | zero => simp [mapE]
        | succ m =>
          simp only [List.take_succ_cons, mapE, hfx, ih ys2 hrest m]

theorem mapE_ok_drop {α β : Type} (f : α → Except PyError β) :
    ∀ (xs : List α) (ys : List β), mapE f xs = .ok ys →
      ∀ n, mapE f (xs.drop n) = .ok (ys.drop n) := by
  intro xs
  induction xs with
  | nil =>
    intro ys h n
    simp only [mapE] at h
    injection h with h
    rw [← h]
    simp [mapE]
  | cons x xs ih =>
    intro ys h n
    simp only [mapE] at h
    cases hfx : f x with
    | error e => rw [hfx] at h; cases h
    | ok y =>
      rw [hfx] at h
      cases hrest : mapE f xs with
      | error e => rw [hrest] at h; cases h
      | ok ys2 =>
        rw [hrest] at h
        injection h with h2
        rw [← h2]
        cases n with
        | zero => simp only [List.drop_zero, mapE, hfx, hrest]
        | succ m => simp only [List.drop_succ_cons, ih ys2 hrest m]

theorem mapE_map_ok {α β γ : Type} (f : α → Except PyError β) (g : β → γ) :
    ∀ (xs : List α) (ys : List β), mapE f xs = .ok ys →
      mapE (fun x => (f x).map g) xs = .ok (ys.map g) := by
  intro xs
  induction xs with
  | nil =>
    intro ys h
    simp only [mapE] at h
    injection h with h
    rw [← h]
    simp [mapE]
  | cons x xs ih =>
    intro ys h
    simp only [mapE] at h
    cases hfx : f x with
    | error e => rw [hfx] at h; cases h
    | ok y =>
      rw [hfx] at h
      cases hrest : mapE f xs with
      | error e => rw [hrest] at h; cases h
      | ok ys2 =>
        rw [hrest] at h
        injection h with h2
        rw [← h2]
        have hrec := ih ys2 hrest
        simp only [mapE]
        rw [hfx, hrec]
        simp [Except.map]

theorem chunks_mapE {α β : Type} (f : α → Except PyError β) (n : Nat) (hn : 1 ≤ n)
    (xs : List α) (ys : List β) (h : mapE f xs = .ok ys) :
    mapE (fun g => mapE f g) (chunks n xs) = .ok (chunks n ys) := by
  by_cases hxs : xs = []
  · have hys : ys = [] := by
      have hl := mapE_ok_length f xs ys h
      rw [hxs] at hl
      exact List.eq_nil_of_length_eq_zero (by simpa using hl)
    rw [hxs, hys, chunks_nil, chunks_nil]
    simp [mapE]
  · have hys : ys ≠ [] := by
      intro h0
      have hl := mapE_ok_length f xs ys h
      rw [h0] at hl
      exact hxs (List.eq_nil_of_length_eq_zero hl.symm)
    rw [chunks_cons n hn xs hxs, chunks_cons n hn ys hys]
    simp only [mapE]
    rw [mapE_ok_take f xs ys h n,
      chunks_mapE f n hn (xs.drop n) (ys.drop n) (mapE_ok_drop f xs ys h n)]
termination_by xs.length
decreasing_by
  have h1 : 1 ≤ xs.length := List.length_pos.mpr hxs
  simp only [List.length_drop]
  omega

/-! ### Characterization of simple structures -/

theorem is_simple_structure_iff (idf : Str) (nm : Option Str) (ch : List DdlChild)
    (pr : List (Str × PyValue)) (cm : Option Str) :
    (DdlStructure.mk idf nm ch pr cm).is_simple_structure = true ↔
      (nm = none ∧ pr = [] ∧
        ∃ p, ch = [DdlChild.prim p] ∧ p.data.length = 1 ∧ p.vector_size ≤ 4) := by
  rcases ch with _ | ⟨c1, ch2⟩
  · simp [DdlStructure.is_simple_structure]
  · rcases ch2 with _ | ⟨c2, ch3⟩
    · rcases c1 with p | s2
      · rcases pr with _ | ⟨q, pr2⟩
        · rcases nm with _ | nv
          · simp [DdlStructure.is_simple_structure, DdlPrimitive.is_simple_primitive]
          · simp [DdlStructure.is_simple_structure]
        · simp [DdlStructure.is_simple_structure]
      · simp [DdlStructure.is_simple_structure]
    · simp [DdlStructure.is_simple_structure]

/-! ### Claim theorems -/

/-- Claim C1 (code bug): the spec says float values render rounded to the
configured precision N, but `to_float_byte_rounded` calls `round(f, 6)` with
a hard-coded 6, ignoring `self.rounding`.  With rounding precision 2, the
value 0.123456789 renders as `0.123457` (six places); the spec-side
definition `spec_float_text` renders `0.12`, and the two disagree. -/
theorem c1_rounding_fixed_at_six :
    primitive_as_text ⟨some 2⟩ []
        ⟨.float, [.scalar (.f (.finite ⟨123456789, 9⟩))], none, 0, none, none⟩ false
      = .ok (chars "float " ++ [lbrace] ++ chars "0.123457" ++ [rbrace])
    ∧ spec_float_text 2 (.finite ⟨123456789, 9⟩) = chars "0.12"
    ∧ to_float_byte_rounded (.finite ⟨123456789, 9⟩)
        ≠ spec_float_text 2 (.finite ⟨123456789, 9⟩) := by decide

/-- Claim C3 counterexample: the claim that `write` closes the destination on
every exit path fails — rendering a document whose only structure holds a
primitive of the unsupported `type` kind raises a formatting error, and the
exception propagates past `self.file.close()`, leaving the handle open
(second component `false`). -/
theorem c3_counterexample_file_left_open :
    (DdlTextWriter.write ⟨some 6⟩
        ⟨[.mk (chars "A") none [.prim ⟨.type, [], none, 0, none, none⟩] [] none]⟩).2 = false
    ∧ (DdlTextWriter.write ⟨some 6⟩
        ⟨[.mk (chars "A") none [.prim ⟨.type, [], none, 0, none, none⟩] [] none]⟩).1
      = .error (.typeError (chars "Encountered unknown primitive type.")) := by decide

/-- Claim C3 amended: `write` closes the destination if and only if rendering
succeeded; when rendering aborts with a formatting error the exception
propagates before the close and the handle is left open. -/
theorem c3_close_iff_render_success (w : DdlTextWriter) (doc : DdlDocument) :
    (DdlTextWriter.write w doc).2 = true ↔
      ∃ out, (DdlTextWriter.write w doc).1 = .ok out := by
  unfold DdlTextWriter.write
  cases hmap : mapE (structure_as_text w []) doc.structures with
  | ok parts => simp [hmap]
  | error e => simp [hmap]

/-- Claim C6: infinite and not-a-number float/double values render as the
literal `0.0` under every rounding configuration — in both conversion
functions, in the conversion the writer selects, and in a full primitive
rendering — never as an error and never as the raw special-value text. -/
theorem c6_nonfinite_floats_render_zero (w : DdlTextWriter) (ind : Str)
    (f : PyFloat) (h : f.isinf = true ∨ f.isnan = true) :
    to_float_byte f = chars "0.0"
    ∧ to_float_byte_rounded f = chars "0.0"
    ∧ float_conv w (.f f) = .ok (chars "0.0")
    ∧ select_to_bytes w .float = .ok (float_conv w)
    ∧ select_to_bytes w .double = .ok (float_conv w)
    ∧ primitive_as_text w ind ⟨.float, [.scalar (.f f)], none, 0, none, none⟩ false
        = .ok (ind ++ chars "float" ++ chars " " ++ [lbrace] ++ chars "0.0" ++ [rbrace])
    ∧ primitive_as_text w ind ⟨.double, [.scalar (.f f)], none, 0, none, none⟩ false
        = .ok (ind ++ chars "double" ++ chars " " ++ [lbrace] ++ chars "0.0" ++ [rbrace]) := by
  have hf1 : to_float_byte f = chars "0.0" := by
    cases f with
    | finite d => simp [PyFloat.isinf, PyFloat.isnan] at h
    | inf => rfl
    | negInf => rfl
    | nan => rfl
  have hf2 : to_float_byte_rounded f = chars "0.0" := by
    cases f with
    | finite d => simp [PyFloat.isinf, PyFloat.isnan] at h
    | inf => rfl
    | negInf => rfl
    | nan => rfl
  have hfc : float_conv w (.f f) = .ok (chars "0.0") := by
    by_cases hw : w.rounding = none
    · simp [float_conv, lift_float, hw, hf1]
    · simp [float_conv, lift_float, hw, hf2]
  have hp1 : primitive_as_text w ind ⟨.float, [.scalar (.f f)], none, 0, none, none⟩ false
      = .ok (ind ++ chars "float" ++ chars " " ++ [lbrace] ++ chars "0.0" ++ [rbrace]) := by
    simp [primitive_as_text, select_to_bytes, conv_entry, primitive_header, dt_name, hfc]
  have hp2 : primitive_as_text w ind ⟨.double, [.scalar (.f f)], none, 0, none, none⟩ false
      = .ok (ind ++ chars "double" ++ chars " " ++ [lbrace] ++ chars "0.0" ++ [rbrace]) := by
    simp [primitive_as_text, select_to_bytes, conv_entry, primitive_header, dt_name, hfc]
  exact ⟨hf1, hf2, hfc, rfl, rfl, hp1, hp2⟩

/-- Claim C6 witness: positive infinity at the default precision 6. -/
theorem c6_witness : to_float_byte PyFloat.inf = chars "0.0" :=
  (c6_nonfinite_floats_render_zero ⟨some 6⟩ [] .inf (Or.inl rfl)).1

/-- Claim C7: property pairs format booleans as `true`/`false` (never as a
decimal integer — the `isinstance(value, bool)` check precedes the `int`
check), integers as decimal text, floats with the unrounded `to_float_byte`
(the rounding option does not reach `property_as_text`), strings wrapped in
double quotes with the text verbatim; any other value raises a `TypeError`
that propagates out of `structure_as_text`, never silently skipping the
property. -/
theorem c7_property_formatting (k : Str) :
    property_as_text (k, PyValue.bool true) = .ok (k ++ chars " = " ++ chars "true")
    ∧ property_as_text (k, PyValue.bool false) = .ok (k ++ chars " = " ++ chars "false")
    ∧ (∀ i : Int, property_as_text (k, PyValue.int i)
        = .ok (k ++ chars " = " ++ to_int_byte i))
    ∧ (∀ f : PyFloat, property_as_text (k, PyValue.float f)
        = .ok (k ++ chars " = " ++ to_float_byte f))
    ∧ (∀ s : Str, property_as_text (k, PyValue.str s)
        = .ok (k ++ chars " = " ++ chars "\"" ++ s ++ chars "\""))
    ∧ property_as_text (k, PyValue.other)
        = .error (.typeError
            (chars "ERROR: Unknown property type for property \"" ++ k ++ chars "\""))
    ∧ (∀ (w : DdlTextWriter) (ind idf : Str),
        structure_as_text w ind (.mk idf none [] [(k, PyValue.other)] none)
          = .error (.typeError
              (chars "ERROR: Unknown property type for property \"" ++ k ++ chars "\""))) := by
  refine ⟨rfl, rfl, fun i => rfl, fun f => rfl, fun s => rfl, rfl, ?_⟩
  intro w ind idf
  simp [structure_as_text, mapE, property_as_text]

/-- Claim C8: a reference-type primitive renders each referenced structure as
`$` followed by the structure's name; a dangling reference (target without a
name) makes the rendering raise (the `B"$" + None` concatenation), which
surfaces to the caller — never a silent success or a fallback value. -/
theorem c8_reference_rendering (w : DdlTextWriter) (ind : Str) (t : RefTarget) :
    (∀ n, t.name = some n →
        primitive_as_text w ind ⟨.ref, [.scalar (.ref t)], none, 0, none, none⟩ false
          = .ok (ind ++ chars "ref" ++ chars " " ++ [lbrace] ++ chars "$" ++ n ++ [rbrace]))
    ∧ (t.name = none →
        ∀ out, primitive_as_text w ind ⟨.ref, [.scalar (.ref t)], none, 0, none, none⟩ false
          ≠ .ok out)
    ∧ (t.name = none →
        primitive_as_text w ind ⟨.ref, [.scalar (.ref t)], none, 0, none, none⟩ false
          = .error (.typeError (chars "cannot concat NoneType to bytes"))) := by
  refine ⟨?_, ?_, ?_⟩
  · intro n hn
    simp [primitive_as_text, select_to_bytes, conv_entry, conv_ref, to_ref_byte, hn,
      primitive_header, dt_name]
  · intro hnone out
    simp [primitive_as_text, select_to_bytes, conv_entry, conv_ref, to_ref_byte, hnone]
  · intro hnone
    simp [primitive_as_text, select_to_bytes, conv_entry, conv_ref, to_ref_byte, hnone]

/-- Claim C8 witness: a named target `human1` renders as `$human1`; an
anonymous target raises. -/
theorem c8_witness :
    primitive_as_text ⟨some 6⟩ []
        ⟨.ref, [.scalar (.ref ⟨some (chars "human1")⟩)], none, 0, none, none⟩ false
      = .ok ([] ++ chars "ref" ++ chars " " ++ [lbrace] ++ chars "$" ++ chars "human1" ++ [rbrace])
    ∧ primitive_as_text ⟨some 6⟩ []
        ⟨.ref, [.scalar (.ref ⟨none⟩)], none, 0, none, none⟩ false
      = .error (.typeError (chars "cannot concat NoneType to bytes")) :=
  ⟨(c8_reference_rendering ⟨some 6⟩ [] ⟨some (chars "human1")⟩).1 (chars "human1") rfl,
   (c8_reference_rendering ⟨some 6⟩ [] ⟨none⟩).2.2 rfl⟩

/-- Claim C9 (code bug): two structures constructed without an explicit
`children` argument share the single default list created when
`DdlStructure.__init__`'s `def` line executed; appending a primitive to the
first is visible through the second, contradicting the claim that each
construction receives its own fresh empty collection. -/
theorem c9_shared_default_children :
    children_of ddlStructure_defaults_heap
        (ddlStructure_init ddlStructure_defaults_heap (chars "B") none none none).1 = []
    ∧ children_of
        (hstructure_add_primitive ddlStructure_defaults_heap
          (ddlStructure_init ddlStructure_defaults_heap (chars "A") none none none).1
          .int32).2
        (ddlStructure_init ddlStructure_defaults_heap (chars "B") none none none).1
      = [.primObj .int32] := by decide

/-- Claim C10 counterexample: constructing a structure with the empty
(bytes) string as its name does NOT yield an anonymous structure.
`name != ""` compares the bytes name against the `str` empty string, which
is always unequal in Python 3, so the empty name is kept: the structure's
`name` is not `None`, the same shape that collapses when anonymous fails
`is_simple_structure`, and used as a reference target it silently renders
`$` instead of failing. -/
theorem c10_counterexample_empty_bytes_name_kept :
    (DdlStructure.init (chars "A") (some [])
        [.prim ⟨.int32, [.scalar (.i 1)], none, 0, none, none⟩] []).name ≠ none
    ∧ DdlStructure.is_simple_structure
        (DdlStructure.init (chars "A") none
          [.prim ⟨.int32, [.scalar (.i 1)], none, 0, none, none⟩] []) = true
    ∧ DdlStructure.is_simple_structure
        (DdlStructure.init (chars "A") (some [])
          [.prim ⟨.int32, [.scalar (.i 1)], none, 0, none, none⟩] []) = false
    ∧ to_ref_byte (DdlStructure.init (chars "A") (some [])
        [.prim ⟨.int32, [.scalar (.i 1)], none, 0, none, none⟩] []).refView
      = .ok (chars "$") := by decide

/-- Claim C10 amended: a structure constructed with the empty bytes string
as its name keeps that name (the constructor's `name != ""` check compares
bytes with the `str` empty string and never fires for bytes).  The renderer
still emits no ` $<name>` part — the truthiness check skips empty names — so
such a structure renders exactly like an anonymous one whenever the
anonymous one is not collapsed; but it is not anonymous: it never qualifies
as a simple structure, and as a reference target it silently renders `$`
rather than raising. -/
theorem c10_empty_name_kept_but_unrendered (idf : Str) (ch : List DdlChild)
    (pr : List (Str × PyValue)) (cm : Option Str) (w : DdlTextWriter) (ind : Str) :
    (DdlStructure.init idf (some []) ch pr).name = some []
    ∧ DdlStructure.is_simple_structure (.mk idf (some []) ch pr cm) = false
    ∧ to_ref_byte (DdlStructure.init idf (some []) ch pr).refView = .ok (chars "$")
    ∧ (DdlStructure.is_simple_structure (.mk idf none ch pr cm) = false →
        structure_as_text w ind (.mk idf (some []) ch pr cm)
          = structure_as_text w ind (.mk idf none ch pr cm)) := by
  have hns : DdlStructure.is_simple_structure (.mk idf (some []) ch pr cm) = false := by
    cases hval : DdlStructure.is_simple_structure (.mk idf (some []) ch pr cm) with
    | false => rfl
    | true =>
      exact absurd ((is_simple_structure_iff idf (some []) ch pr cm).mp hval).1 (by simp)
  refine ⟨rfl, hns, rfl, ?_⟩
  intro hns2
  simp [structure_as_text, hns, hns2]

/-- Claim C10 witness: the empty-named and anonymous structures render
identically when the anonymous one does not collapse. -/
theorem c10_witness :
    structure_as_text ⟨some 6⟩ [] (.mk (chars "A") (some []) [] [] none)
      = structure_as_text ⟨some 6⟩ [] (.mk (chars "A") none [] [] none) :=
  (c10_empty_name_kept_but_unrendered (chars "A") [] [] none ⟨some 6⟩ []).2.2.2 (by decide)

/-- Claim C2 (spec-modelled): in the comment-emitting renderer, a structure's
attached comment is emitted as `// <comment>` on its own line at the current
indent before anything else of that structure; a primitive's comment is
emitted on its own line above the primitive, except inside a simple-structure
collapse (`no_indent = true`), where it is skipped. -/
theorem c2_comment_on_own_line_first (w : DdlTextWriter) (ind : Str) :
    (∀ (idf : Str) (nm : Option Str) (ch : List DdlChild) (pr : List (Str × PyValue)) (c : Str),
      structure_as_text_c w ind (.mk idf nm ch pr (some c))
        = (structure_as_text_c w ind (.mk idf nm ch pr none)).map
            (fun r => ind ++ chars "// " ++ c ++ chars "\n" ++ r))
    ∧ (∀ (dt : DdlPrimitiveDataType) (data : List PyDataEntry) (pnm : Option Str)
        (vs : Nat) (mepl : Option Nat) (c : Str),
      primitive_as_text_c w ind ⟨dt, data, pnm, vs, mepl, some c⟩ false
        = (primitive_as_text_c w ind ⟨dt, data, pnm, vs, mepl, none⟩ false).map
            (fun r => ind ++ chars "// " ++ c ++ chars "\n" ++ r))
    ∧ (∀ p : DdlPrimitive,
        primitive_as_text_c w ind p true = primitive_as_text w ind p true) := by
  refine ⟨?_, ?_, ?_⟩
  · intro idf nm ch pr c
    have hb : structure_body_c w ind (.mk idf nm ch pr (some c))
        = structure_body_c w ind (.mk idf nm ch pr none) := rfl
    unfold structure_as_text_c
    rw [hb]
    cases hv : structure_body_c w ind (.mk idf nm ch pr none) with
    | error e => simp [hv, comment_line, DdlStructure.comment, Except.map]
    | ok r => simp [hv, comment_line, DdlStructure.comment, Except.map]
  · intro dt data pnm vs mepl c
    have hp : primitive_as_text w ind ⟨dt, data, pnm, vs, mepl, some c⟩ false
        = primitive_as_text w ind ⟨dt, data, pnm, vs, mepl, none⟩ false := rfl
    unfold primitive_as_text_c
    rw [hp]
    cases hv : primitive_as_text w ind ⟨dt, data, pnm, vs, mepl, none⟩ false with
    | error e => simp [hv, comment_line, Except.map]
    | ok r => simp [hv, comment_line, Except.map]
  · intro p
    unfold primitive_as_text_c
    cases hv : primitive_as_text w ind p true with
    | error e => simp [hv]
    | ok r => simp [hv]

/-- Claim C4: a structure renders in the single-line collapsed form exactly
when it has no name, no properties, and its only child is a primitive with
one data element and `vector_size ≤ 4`; in that case the output is
`identifier {<inline primitive>}` on one line, and in every other case the
output is the multi-line braced block form. -/
theorem c4_single_line_collapse_iff (w : DdlTextWriter) (ind : Str) (s : DdlStructure) :
    (s.is_simple_structure = true ↔
      (s.name = none ∧ s.properties = [] ∧
        ∃ p, s.children = [DdlChild.prim p] ∧ p.data.length = 1 ∧ p.vector_size ≤ 4))
    ∧ (∀ p, s.children = [DdlChild.prim p] → s.is_simple_structure = true →
        structure_as_text w ind s
          = (primitive_as_text w ind p true).map
              (fun inner => ind ++ s.identifier ++ chars " " ++ [lbrace] ++ inner
                ++ [rbrace] ++ chars "\n"))
    ∧ (s.is_simple_structure = false →
        ∀ out, structure_as_text w ind s = .ok out →
          ∃ head body, out = head ++ chars "\n" ++ ind ++ [lbrace] ++ chars "\n"
            ++ body ++ ind ++ [rbrace] ++ chars "\n") := by
  cases s with
  | mk idf nm ch pr cm =>
    refine ⟨?_, ?_, ?_⟩
    · simpa [DdlStructure.name, DdlStructure.properties, DdlStructure.children]
        using is_simple_structure_iff idf nm ch pr cm
    · intro p hch hsimp
      simp only [DdlStructure.children] at hch
      obtain ⟨hnm, hpr, p2, hch2, hlen2, hvs2⟩ :=
        (is_simple_structure_iff idf nm ch pr cm).mp hsimp
      subst hch hnm hpr
      simp only [structure_as_text, DdlStructure.identifier, hsimp]
      cases hv : primitive_as_text w ind p true with
      | error e => simp [hv, Except.map]
      | ok inner => simp [hv, Except.map]
    · intro hns out hout
      simp only [structure_as_text] at hout
      split at hout
      · exact absurd hout (by simp)
      · rename_i t3 heq
        have hcond : ¬((DdlStructure.mk idf nm ch pr cm).is_simple_structure = true) := by
          rw [hns]
          simp
        rw [if_neg hcond] at hout
        split at hout
        · exact absurd hout (by simp)
        · rename_i body heq2
          injection hout with h
          exact ⟨t3, body, by rw [← h]⟩

/-- Claim C4 witness: a simple structure `A` with one `int32` primitive. -/
theorem c4_witness :
    structure_as_text ⟨some 6⟩ []
        (.mk (chars "A") none [.prim ⟨.int32, [.scalar (.i 7)], none, 0, none, none⟩] [] none)
      = (primitive_as_text ⟨some 6⟩ [] ⟨.int32, [.scalar (.i 7)], none, 0, none, none⟩ true).map
          (fun inner => [] ++ (DdlStructure.mk (chars "A") none
              [.prim ⟨.int32, [.scalar (.i 7)], none, 0, none, none⟩] [] none).identifier
            ++ chars " " ++ [lbrace] ++ inner ++ [rbrace] ++ chars "\n") :=
  (c4_single_line_collapse_iff ⟨some 6⟩ [] _).2.1 _ rfl (by decide)

/-- Claim C5: with a max-elements-per-line hint `n`, a multi-element
primitive's block partitions the rendered sequence into consecutive groups of
at most `n` (all full except possibly the last), emitting one indented line
per group, elements within a group comma-space-joined and groups separated by
a comma, newline, and indent.  For flat primitives the elements are the
rendered values; for vector primitives each vector is rendered as `{…}`
before grouping.  The group count is `⌈len/n⌉`, so 99 flat elements with
hint 10 give exactly 10 value lines. -/
theorem c5_max_elements_per_line_grouping (w : DdlTextWriter) (ind : Str)
    (p : DdlPrimitive) (n : Nat) (conv : Scalar → Except PyError Str)
    (hhint : p.max_elements_per_line = some n) (hn : 1 ≤ n) (hlen : 1 < p.data.length)
    (hsel : select_to_bytes w p.data_type = .ok conv) :
    (∀ vals, p.vector_size = 0 → mapE (conv_entry conv) p.data = .ok vals →
      primitive_as_text w ind p false
        = .ok (primitive_header ind p false ++ chars "\n" ++ ind ++ [lbrace] ++ chars "\n"
            ++ (ind ++ [tabc])
            ++ joinSep (chars ",\n" ++ (ind ++ [tabc]))
                ((chunks n vals).map (joinSep (chars ", ")))
            ++ chars "\n" ++ ind ++ [rbrace] ++ chars "\n")
      ∧ (chunks n vals).flatten = vals
      ∧ (∀ g ∈ chunks n vals, g ≠ [] ∧ g.length ≤ n)
      ∧ (∀ gs last, chunks n vals = gs ++ [last] → ∀ g ∈ gs, g.length = n)
      ∧ vals.length = p.data.length
      ∧ (chunks n vals).length = (p.data.length + n - 1) / n
      ∧ (p.data.length = 99 → n = 10 → (chunks n vals).length = 10))
    ∧ (∀ vvals, 0 < p.vector_size →
      mapE (fun d => (conv_vec conv d).map (joinSep (chars ", "))) p.data = .ok vvals →
      primitive_as_text w ind p false
        = .ok (primitive_header ind p false ++ chars "\n" ++ ind ++ [lbrace] ++ chars "\n"
            ++ (ind ++ [tabc])
            ++ joinSep (chars ",\n" ++ (ind ++ [tabc]))
                ((chunks n vvals).map (fun g =>
                  joinSep (chars ", ") (g.map (fun v => [lbrace] ++ v ++ [rbrace]))))
            ++ chars "\n" ++ ind ++ [rbrace] ++ chars "\n")
      ∧ (chunks n vvals).flatten = vvals
      ∧ (∀ g ∈ chunks n vvals, g ≠ [] ∧ g.length ≤ n)
      ∧ (∀ gs last, chunks n vvals = gs ++ [last] → ∀ g ∈ gs, g.length = n)
      ∧ vvals.length = p.data.length
      ∧ (chunks n vvals).length = (p.data.length + n - 1) / n) := by
  obtain ⟨dt, data, pnm, vs, mepl, cm⟩ := p
  dsimp only at hhint hlen hsel ⊢
  subst hhint
  constructor
  · intro vals hvs hok
    subst hvs
    have hvl : vals.length = data.length := mapE_ok_length _ data vals hok
    refine ⟨?_, chunks_flatten n hn vals,
      fun g hg => ⟨chunks_mem_ne_nil n hn vals g hg, chunks_mem_length_le n vals g hg⟩,
      chunks_init_full n hn vals, hvl, by rw [chunks_length, hvl], ?_⟩
    · rcases data with _ | ⟨a, _ | ⟨b, rest⟩⟩
      · simp at hlen
      · simp at hlen
      · have hlines : mapE (fun g => (mapE (conv_entry conv) g).map (joinSep (chars ", ")))
            (chunks n (a :: b :: rest)) = .ok ((chunks n vals).map (joinSep (chars ", "))) := by
          exact mapE_map_ok (fun g => mapE (conv_entry conv) g) (joinSep (chars ", "))
            (chunks n (a :: b :: rest)) (chunks n vals)
            (chunks_mapE (conv_entry conv) n hn (a :: b :: rest) vals hok)
        simp only [primitive_as_text, hsel, hlines]
        simp [List.append_assoc]
    · intro h99 h10
      rw [chunks_length, hvl, h99, h10]
  · intro vvals hvpos hokv
    have hvl : vvals.length = data.length := mapE_ok_length _ data vvals hokv
    refine ⟨?_, chunks_flatten n hn vvals,
      fun g hg => ⟨chunks_mem_ne_nil n hn vvals g hg, chunks_mem_length_le n vvals g hg⟩,
      chunks_init_full n hn vvals, hvl, by rw [chunks_length, hvl]⟩
    rcases data with _ | ⟨a, _ | ⟨b, rest⟩⟩
    · simp at hlen
    · simp at hlen
    · have hvne : ¬(vs = 0) := by omega
      have hvv_ne : vvals ≠ [] := by
        intro h0
        rw [h0] at hvl
        simp at hvl
      have hcne : chunks n vvals ≠ [] := chunks_ne_nil n hn vvals hvv_ne
      have hG : mapE (fun g => (mapE (fun d => (conv_vec conv d).map
            (joinSep (chars ", "))) g).map
          (joinSep ([rbrace] ++ chars ", " ++ [lbrace]))) (chunks n (a :: b :: rest))
          = .ok ((chunks n vvals).map (joinSep ([rbrace] ++ chars ", " ++ [lbrace]))) := by
        exact mapE_map_ok (fun g => mapE (fun d => (conv_vec conv d).map
              (joinSep (chars ", "))) g)
          (joinSep ([rbrace] ++ chars ", " ++ [lbrace]))
          (chunks n (a :: b :: rest)) (chunks n vvals)
          (chunks_mapE (fun d => (conv_vec conv d).map (joinSep (chars ", ")))
            n hn (a :: b :: rest) vvals hokv)
      have hGmapne : ((chunks n vvals).map
          (joinSep ([rbrace] ++ chars ", " ++ [lbrace]))) ≠ [] := by
        cases hc : chunks n vvals with
        | nil => exact absurd hc hcne
        | cons gh gt => simp [hc]
      have hkey : [lbrace] ++ joinSep ([rbrace] ++ chars ",\n" ++ (ind ++ [tabc]) ++ [lbrace])
            ((chunks n vvals).map (joinSep ([rbrace] ++ chars ", " ++ [lbrace]))) ++ [rbrace]
          = joinSep (chars ",\n" ++ (ind ++ [tabc]))
              ((chunks n vvals).map (fun g =>
                joinSep (chars ", ") (g.map (fun v => [lbrace] ++ v ++ [rbrace])))) := by
        have hsep : ([rbrace] ++ chars ",\n" ++ (ind ++ [tabc]) ++ [lbrace] : Str)
            = [rbrace] ++ (chars ",\n" ++ (ind ++ [tabc])) ++ [lbrace] := by
          simp [List.append_assoc]
        rw [hsep, joinSep_wrap (chars ",\n" ++ (ind ++ [tabc])) _ hGmapne, List.map_map]
        apply congrArg
        apply List.map_congr_left
        intro g hg
        have hgne := chunks_mem_ne_nil n hn vvals g hg
        simpa [Function.comp] using joinSep_wrap (chars ", ") g hgne
      simp only [primitive_as_text, hsel, hG]
      rw [if_neg hvne]
      have hkey2 : ((ind ++ [tabc]) ++ [lbrace]
            ++ joinSep ([rbrace] ++ chars ",\n" ++ (ind ++ [tabc]) ++ [lbrace])
              ((chunks n vvals).map (joinSep ([rbrace] ++ chars ", " ++ [lbrace])))
            ++ [rbrace] ++ chars "\n" : Str)
          = (ind ++ [tabc])
            ++ joinSep (chars ",\n" ++ (ind ++ [tabc]))
              ((chunks n vvals).map (fun g =>
                joinSep (chars ", ") (g.map (fun v => [lbrace] ++ v ++ [rbrace]))))
            ++ chars "\n" := by
        calc ((ind ++ [tabc]) ++ [lbrace]
              ++ joinSep ([rbrace] ++ chars ",\n" ++ (ind ++ [tabc]) ++ [lbrace])
                ((chunks n vvals).map (joinSep ([rbrace] ++ chars ", " ++ [lbrace])))
              ++ [rbrace] ++ chars "\n" : Str)
            = (ind ++ [tabc])
              ++ (([lbrace]
                ++ joinSep ([rbrace] ++ chars ",\n" ++ (ind ++ [tabc]) ++ [lbrace])
                  ((chunks n vvals).map (joinSep ([rbrace] ++ chars ", " ++ [lbrace])))
                ++ [rbrace]) ++ chars "\n") := by
              simp [List.append_assoc]
          _ = (ind ++ [tabc])
              ++ (joinSep (chars ",\n" ++ (ind ++ [tabc]))
                ((chunks n vvals).map (fun g =>
                  joinSep (chars ", ") (g.map (fun v => [lbrace] ++ v ++ [rbrace]))))
                ++ chars "\n") := by
              rw [hkey]
          _ = (ind ++ [tabc])
              ++ joinSep (chars ",\n" ++ (ind ++ [tabc]))
                ((chunks n vvals).map (fun g =>
                  joinSep (chars ", ") (g.map (fun v => [lbrace] ++ v ++ [rbrace]))))
              ++ chars "\n" := by
              simp [List.append_assoc]
      rw [hkey2]
      simp [List.append_assoc]

/-- Claim C5 witness: the 99-element flat primitive with hint 10 produces 10
groups; the three-vector primitive with hint 2 partitions its vectors. -/
theorem c5_witness :
    (chunks 10 vals99).length = 10
    ∧ (chunks 2 vvalsEx).flatten = vvalsEx :=
  ⟨((c5_max_elements_per_line_grouping ⟨some 6⟩ [] p99 10 conv_int rfl
        (by decide) (by decide) rfl).1 vals99 rfl (by decide)).2.2.2.2.2.2 (by decide) rfl,
   ((c5_max_elements_per_line_grouping ⟨some 6⟩ [] pvec 2 conv_int rfl
        (by decide) (by decide) rfl).2 vvalsEx (by decide) (by decide)).2.1⟩
